import Mathlib

/-!
# Verification of the pipa_rs performance-counter group subsystem

Shallow embedding of `crates/pipa_collector/src/raw_perf_events.rs` (the
`PerfEvent` enumeration, the `perf_event_attr` record construction, the
`EventGroup` handle with its `Drop` implementation, and `create_event_group`)
together with the error type `PipaCollectorError` from
`crates/pipa_collector/src/system_stats.rs`.

The `perf_event_open` syscall and `libc::close` are external effects; they are
embedded as oracles: `openRes i` is the file descriptor (or negative failure
code) returned by the i-th `perf_event_open` call of a run, `errnoRes i` is the
OS error (`io::Error::last_os_error()`) observed after that call, and
`closeRes fd` is the return value of `libc::close(fd)`.  Every run records a
trace of the syscall arguments so that claims about the arguments passed to the
kernel, and about which descriptors get closed, are statable.
-/

set_option autoImplicit false

namespace PipaRs

/-! ## ABI constants

Numeric values of the `perf_event_open_sys::bindings` constants used by the
source (they come from `linux/perf_event.h`):
`PERF_TYPE_HARDWARE = 0`, `PERF_COUNT_HW_CPU_CYCLES = 0`,
`PERF_COUNT_HW_INSTRUCTIONS = 1`, `PERF_FORMAT_ID = 1 << 2`,
`PERF_FORMAT_GROUP = 1 << 3`. -/

def PERF_TYPE_HARDWARE : Nat := 0

def PERF_COUNT_HW_CPU_CYCLES : Nat := 0

def PERF_COUNT_HW_INSTRUCTIONS : Nat := 1

def PERF_FORMAT_ID : Nat := 4

def PERF_FORMAT_GROUP : Nat := 8

/-- `enum PerfEvent { Cycles, Instructions }` — the closed enumeration of
monitorable logical events (raw_perf_events.rs lines 35-40). -/
inductive PerfEvent where
  | Cycles : PerfEvent
  | Instructions : PerfEvent
deriving DecidableEq, Repr

/-- `PerfEvent::to_config` (raw_perf_events.rs lines 46-56): the pure mapping
from a logical event to the kernel's `(type, config)` pair. -/
def PerfEvent.to_config : PerfEvent → Nat × Nat
  | .Cycles => (PERF_TYPE_HARDWARE, PERF_COUNT_HW_CPU_CYCLES)
  | .Instructions => (PERF_TYPE_HARDWARE, PERF_COUNT_HW_INSTRUCTIONS)

/-- The `perf_event_attr` record, with the bindgen bitfield flags
(`set_disabled`, `set_inherit`, ...) modelled as plain numeric fields.
The source constructs it with `..Default::default()`, which zero-initializes
every field not listed (raw_perf_events.rs lines 123-128). -/
structure PerfEventAttr where
  type_ : Nat
  size : Nat
  config : Nat
  sample_period : Nat
  sample_type : Nat
  read_format : Nat
  disabled : Nat
  inherit : Nat
  pinned : Nat
  exclusive : Nat
  exclude_user : Nat
  exclude_kernel : Nat
  exclude_hv : Nat
  exclude_idle : Nat
  enable_on_exec : Nat
  wakeup_events : Nat
  bp_type : Nat
  bp_addr : Nat
  bp_len : Nat
  branch_sample_type : Nat
  sample_regs_user : Nat
  sample_stack_user : Nat
  clockid : Int
  sample_regs_intr : Nat
  aux_watermark : Nat
  sample_max_stack : Nat
  sig_data : Nat
deriving DecidableEq, Repr

/-- `Default::default()` for `perf_event_attr`: every field zero. -/
def PerfEventAttr.default : PerfEventAttr :=
  ⟨0, 0, 0, 0, 0, 0, 0, 0, 0, 0, 0, 0, 0, 0, 0, 0, 0, 0, 0, 0, 0, 0, 0, 0, 0,
   0, 0⟩

/-- The attribute record built for the member at index `i` of the event list
(raw_perf_events.rs lines 121-136): `type_`/`config` from `to_config`, `size`
set to `std::mem::size_of::<perf_event_attr>()` (the parameter `sz`), every
other field zero-initialized by `..Default::default()`; then, for `i == 0`
only, `set_disabled(1)`, `set_inherit(1)` and
`read_format = PERF_FORMAT_GROUP | PERF_FORMAT_ID`. -/
def mkAttrs (sz : Nat) (i : Nat) (event : PerfEvent) : PerfEventAttr :=
  let tc := event.to_config
  let base : PerfEventAttr :=
    { PerfEventAttr.default with type_ := tc.1, config := tc.2, size := sz }
  if i = 0 then
    { base with
        disabled := 1
        inherit := 1
        read_format := PERF_FORMAT_GROUP ||| PERF_FORMAT_ID }
  else
    base

/-- The arguments of one `perf_event_open` call, as issued at
raw_perf_events.rs line 144: `sys::perf_event_open(&mut attrs, 0, -1,
leader_fd, 0)`. -/
structure OpenCall where
  attr : PerfEventAttr
  pid : Int
  cpu : Int
  group_fd : Int
  flags : Nat
deriving DecidableEq, Repr

/-- `enum PipaCollectorError` (system_stats.rs lines 30-43).  `Io` carries the
OS error code of `io::Error::last_os_error()`; `Parse` carries the offending
text of a `ParseIntError`. -/
inductive PipaCollectorError where
  | Io : Int → PipaCollectorError
  | Parse : String → PipaCollectorError
  | InvalidFormat : String → PipaCollectorError
  | MissingData : String → PipaCollectorError
deriving DecidableEq, Repr

/-- `struct EventGroup { fds: Vec<RawFd> }` (raw_perf_events.rs lines 65-67). -/
structure EventGroup where
  fds : List Int
deriving DecidableEq, Repr

/-- `EventGroup::leader_fd` (raw_perf_events.rs lines 75-79) returns
`self.fds[0]`.  Rust's indexing panics when the vector is empty, so the
embedding returns an `Option`: `none` is the panic. -/
def EventGroup.leader_fd (g : EventGroup) : Option Int :=
  g.fds[0]?

/-- `EventGroup::drop` (raw_perf_events.rs lines 86-96): `for &fd in
&self.fds { unsafe { libc::close(fd); } }`.  The embedding returns the trace
of the close calls it issues, paired with the (discarded) return value
`closeRes fd` of each `libc::close`; `Drop::drop` itself returns unit, so
there is no error channel. -/
def EventGroup.drop (closeRes : Int → Int) (g : EventGroup) : List (Int × Int) :=
  g.fds.map fun fd => (fd, closeRes fd)

/-- The syscall trace of one `create_event_group` run: the `perf_event_open`
calls issued (in order) and the `libc::close` calls issued (in order). -/
structure Trace where
  opens : List OpenCall
  closes : List Int
deriving DecidableEq, Repr

/-- The `for (i, event) in events.iter().enumerate()` loop of
`create_event_group` (raw_perf_events.rs lines 120-156), with the loop state
made explicit: `i` is the enumeration index, `L` the current `leader_fd`
variable, `fds` the `Vec<RawFd>` accumulated so far and `log` the open calls
issued so far.  On `fd < 0` the function returns
`Err(PipaCollectorError::Io(io::Error::last_os_error()))`; at that point the
local `fds` vector is dropped, and since `RawFd` is a plain `i32`, dropping
`Vec<RawFd>` issues no `libc::close` call — the trace's `closes` component
stays empty.  On success of the `i == 0` call the returned descriptor becomes
the leader; every descriptor is pushed onto `fds`. -/
def create_event_group_loop (openRes errnoRes : Nat → Int) (sz : Nat) :
    List PerfEvent → Nat → Int → List Int → List OpenCall →
    Except PipaCollectorError EventGroup × Trace
  | [], _, _, fds, log => (.ok ⟨fds⟩, ⟨log, []⟩)
  | event :: rest, i, L, fds, log =>
    let attrs := mkAttrs sz i event
    let call : OpenCall := ⟨attrs, 0, -1, L, 0⟩
    let fd := openRes i
    if fd < 0 then
      (.error (.Io (errnoRes i)), ⟨log ++ [call], []⟩)
    else
      create_event_group_loop openRes errnoRes sz rest (i + 1)
        (if i = 0 then fd else L) (fds ++ [fd]) (log ++ [call])

/-- `create_event_group` (raw_perf_events.rs lines 110-159).  An empty event
list is rejected with `PipaCollectorError::InvalidFormat` before any syscall;
otherwise the member loop runs with `leader_fd` initialized to `-1` and empty
accumulators. -/
def create_event_group (openRes errnoRes : Nat → Int) (sz : Nat)
    (events : List PerfEvent) : Except PipaCollectorError EventGroup × Trace :=
  if events.isEmpty then
    (.error (.InvalidFormat "Cannot create an event group with no events."),
     ⟨[], []⟩)
  else
    create_event_group_loop openRes errnoRes sz events 0 (-1) [] []

/-! ## Loop characterization lemmas -/

/-- The `group_fd` argument passed by the call at offset `d` of a loop run
started at enumeration index `i` with leader variable `L`: the leader variable
is only updated at index 0, so a run started at index 0 passes `L` on its first
call and the descriptor of call 0 afterwards, while a run started at a positive
index always passes `L`. -/
def callLeader (openRes : Nat → Int) (i : Nat) (L : Int) (d : Nat) : Int :=
  if i = 0 ∧ 1 ≤ d then openRes i else L

lemma callLeader_zero (openRes : Nat → Int) (i : Nat) (L : Int) :
    callLeader openRes i L 0 = L := by
  simp [callLeader]

lemma callLeader_step (openRes : Nat → Int) (i : Nat) (L : Int) (d : Nat) :
    callLeader openRes i L (d + 1) =
      callLeader openRes (i + 1) (if i = 0 then openRes i else L) d := by
  by_cases hi : i = 0 <;> simp [callLeader, hi]

/-- Indexed description of the open-call log produced by the member loop: each
entry either was already in the accumulator `log`, or is the call for the
event at the corresponding offset of `events`, built from `mkAttrs` at the
shifted index, with `pid = 0`, `cpu = -1`, `flags = 0` and the `group_fd`
given by `callLeader`. -/
lemma loop_opens_get (openRes errnoRes : Nat → Int) (sz : Nat)
    (events : List PerfEvent) :
    ∀ (i : Nat) (L : Int) (fds : List Int) (log : List OpenCall)
      (j : Nat) (c : OpenCall),
      ((create_event_group_loop openRes errnoRes sz events i L fds
          log).2.opens)[j]? = some c →
      log[j]? = some c ∨
        ∃ d e, j = log.length + d ∧ events[d]? = some e ∧
          c = ⟨mkAttrs sz (i + d) e, 0, -1, callLeader openRes i L d, 0⟩ := by
  induction events with
  | nil =>
    intro i L fds log j c h
    exact Or.inl h
  | cons event rest ih =>
    intro i L fds log j c h
    simp only [create_event_group_loop] at h
    split at h
    · -- the open of member `i` failed: the log gains exactly this call
      rw [List.getElem?_append] at h
      split at h
      · exact Or.inl h
      · rename_i hj
        cases hd : j - log.length with
        | zero =>
          rw [hd] at h
          simp only [List.getElem?_cons_zero, Option.some.injEq] at h
          refine Or.inr ⟨0, event, by omega, by simp, ?_⟩
          rw [← h]
          simp [callLeader_zero]
        | succ d =>
          rw [hd] at h
          simp at h
    · -- the open of member `i` succeeded: recurse
      rcases ih (i + 1) (if i = 0 then openRes i else L) (fds ++ [openRes i])
          (log ++ [⟨mkAttrs sz i event, 0, -1, L, 0⟩]) j c h with hlog | hrec
      · rw [List.getElem?_append] at hlog
        split at hlog
        · exact Or.inl hlog
        · rename_i hj
          cases hd : j - log.length with
          | zero =>
            rw [hd] at hlog
            simp only [List.getElem?_cons_zero, Option.some.injEq] at hlog
            refine Or.inr ⟨0, event, by omega, by simp, ?_⟩
            rw [← hlog]
            simp [callLeader_zero]
          | succ d =>
            rw [hd] at hlog
            simp at hlog
      · rcases hrec with ⟨d, e, hjd, he, hc⟩
        refine Or.inr ⟨d + 1, e, ?_, ?_, ?_⟩
        · simp at hjd
          omega
        · simpa using he
        · rw [hc, callLeader_step]
          have hadd : i + 1 + d = i + (d + 1) := by omega
          rw [hadd]

/-- On `Ok`, the member loop returns the accumulated descriptors followed by
one descriptor per remaining event, namely the oracle's answers at the
successive call indices. -/
lemma loop_ok (openRes errnoRes : Nat → Int) (sz : Nat)
    (events : List PerfEvent) :
    ∀ (i : Nat) (L : Int) (fds : List Int) (log : List OpenCall)
      (g : EventGroup),
      (create_event_group_loop openRes errnoRes sz events i L fds
          log).1 = .ok g →
      ∃ tail, g.fds = fds ++ tail ∧ tail.length = events.length ∧
        ∀ d, d < events.length → tail[d]? = some (openRes (i + d)) := by
  induction events with
  | nil =>
    intro i L fds log g h
    simp only [create_event_group_loop, Except.ok.injEq] at h
    exact ⟨[], by rw [← h]; simp, rfl, by intro d hd; simp at hd⟩
  | cons event rest ih =>
    intro i L fds log g h
    simp only [create_event_group_loop] at h
    split at h
    · simp at h
    · rcases ih (i + 1) (if i = 0 then openRes i else L) (fds ++ [openRes i])
          (log ++ [⟨mkAttrs sz i event, 0, -1, L, 0⟩]) g h with
        ⟨tail, hfds, hlen, hval⟩
      refine ⟨openRes i :: tail, ?_, by simp [hlen], ?_⟩
      · rw [hfds]
        simp
      · intro d hd
        rcases d with _ | d
        · simp
        · have := hval d (by simpa using hd)
          simpa [Nat.add_assoc, Nat.add_comm 1 d] using this

/-- On `Err`, the member loop failed at some remaining event: the error is
`Io` of the OS error observed at that call, and the oracle's answer there was
negative. -/
lemma loop_error (openRes errnoRes : Nat → Int) (sz : Nat)
    (events : List PerfEvent) :
    ∀ (i : Nat) (L : Int) (fds : List Int) (log : List OpenCall)
      (err : PipaCollectorError),
      (create_event_group_loop openRes errnoRes sz events i L fds
          log).1 = .error err →
      ∃ d, d < events.length ∧ openRes (i + d) < 0 ∧
        err = .Io (errnoRes (i + d)) := by
  induction events with
  | nil =>
    intro i L fds log err h
    simp [create_event_group_loop] at h
  | cons event rest ih =>
    intro i L fds log err h
    simp only [create_event_group_loop] at h
    split at h
    · simp only [Except.error.injEq] at h
      exact ⟨0, by simp, by simpa using ‹openRes i < 0›, by rw [← h]; simp⟩
    · rcases ih (i + 1) (if i = 0 then openRes i else L) (fds ++ [openRes i])
          (log ++ [⟨mkAttrs sz i event, 0, -1, L, 0⟩]) err h with
        ⟨d, hd, hneg, herr⟩
      refine ⟨d + 1, by simpa using hd, ?_, ?_⟩
      · have : i + (d + 1) = i + 1 + d := by omega
        rw [this]; exact hneg
      · have : i + (d + 1) = i + 1 + d := by omega
        rw [this]; exact herr

/-- Top-level description of the open calls issued by `create_event_group`:
the j-th open call, when it exists, is the call for the j-th requested event,
with `pid = 0`, `cpu = -1`, `flags = 0`, `group_fd = -1` for the leader and
the leader's descriptor (the oracle's answer to call 0) for followers. -/
lemma create_opens_get (openRes errnoRes : Nat → Int) (sz : Nat)
    (events : List PerfEvent) (j : Nat) (c : OpenCall)
    (h : ((create_event_group openRes errnoRes sz
        events).2.opens)[j]? = some c) :
    ∃ e, events[j]? = some e ∧
      c = ⟨mkAttrs sz j e, 0, -1, if 1 ≤ j then openRes 0 else -1, 0⟩ := by
  unfold create_event_group at h
  split at h
  · simp at h
  · rcases loop_opens_get openRes errnoRes sz events 0 (-1) [] [] j c h with
      hnil | ⟨d, e, hjd, he, hc⟩
    · simp at hnil
    · have hdj : d = j := by simpa using hjd.symm
      subst hdj
      refine ⟨e, he, ?_⟩
      rw [hc]
      simp [callLeader]

/-- Unfolding equation: a non-empty event list enters the member loop with
leader variable `-1` and empty accumulators. -/
lemma create_event_group_cons (openRes errnoRes : Nat → Int) (sz : Nat)
    (e0 : PerfEvent) (rest : List PerfEvent) :
    create_event_group openRes errnoRes sz (e0 :: rest) =
      create_event_group_loop openRes errnoRes sz (e0 :: rest) 0 (-1)
        [] [] := rfl

/-- Unfolding equation: the empty event list is rejected with no syscall. -/
lemma create_event_group_nil (openRes errnoRes : Nat → Int) (sz : Nat) :
    create_event_group openRes errnoRes sz [] =
      (.error (.InvalidFormat "Cannot create an event group with no events."),
       ⟨[], []⟩) := rfl

/-! ## Claim theorems -/

/-- C5: for the empty event list, `create_event_group` always fails with the
invalid-configuration error whose message is exactly
"Cannot create an event group with no events.", and the syscall trace is
empty — it returns before any counter-open syscall is attempted. -/
theorem C5_empty_list_rejected_before_syscall (openRes errnoRes : Nat → Int)
    (sz : Nat) :
    create_event_group openRes errnoRes sz [] =
      (.error (.InvalidFormat "Cannot create an event group with no events."),
       ⟨[], []⟩) := rfl

/-- C8: `PerfEvent::to_config` is a pure total mapping over the closed
`PerfEvent` enumeration with no error path: `Cycles` maps to
`(PERF_TYPE_HARDWARE, PERF_COUNT_HW_CPU_CYCLES)`, `Instructions` maps to
`(PERF_TYPE_HARDWARE, PERF_COUNT_HW_INSTRUCTIONS)`, and these two variants
exhaust the enumeration. -/
theorem C8_to_config_total_pure_mapping :
    PerfEvent.to_config .Cycles =
        (PERF_TYPE_HARDWARE, PERF_COUNT_HW_CPU_CYCLES) ∧
      PerfEvent.to_config .Instructions =
        (PERF_TYPE_HARDWARE, PERF_COUNT_HW_INSTRUCTIONS) ∧
      ∀ e : PerfEvent, e = .Cycles ∨ e = .Instructions := by
  refine ⟨rfl, rfl, fun e => ?_⟩
  cases e
  · exact Or.inl rfl
  · exact Or.inr rfl

/-- C7: `EventGroup::drop` issues exactly one `libc::close` per descriptor the
group holds (so every held descriptor is closed exactly once per drop of the
handle, for any member count, a single-member group included), and the set of
close calls it issues does not depend on the outcomes of the close calls —
results of `libc::close` are discarded, and `drop` has no error channel, so a
close failure is never propagated. -/
theorem C7_drop_closes_each_descriptor_once (closeRes : Int → Int)
    (g : EventGroup) :
    (g.drop closeRes).map Prod.fst = g.fds ∧
      (∀ fd : Int, ((g.drop closeRes).map Prod.fst).count fd =
        g.fds.count fd) ∧
      ∀ closeRes2 : Int → Int,
        (g.drop closeRes).map Prod.fst = (g.drop closeRes2).map Prod.fst := by
  have hmap : ∀ cr : Int → Int, (g.drop cr).map Prod.fst = g.fds := by
    intro cr
    simp [EventGroup.drop, List.map_map, Function.comp_def]
  exact ⟨hmap closeRes, fun fd => by rw [hmap], fun cr2 => by
    rw [hmap, hmap]⟩

/-- The oracle of the descriptor-leak run: the open of member 0 returns
descriptor 3, the open of member 1 fails. -/
def leakOpenRes : Nat → Int := fun i => if i = 0 then 3 else -1

/-- The descriptor-leak run: two events requested, the second member's open
syscall fails with OS error 28. -/
def leakRun : Except PipaCollectorError EventGroup × Trace :=
  create_event_group leakOpenRes (fun _ => 28) 136
    [PerfEvent.Cycles, PerfEvent.Instructions]

/-- C1 (code bug evidence): when the second member's open fails after the
first member's open succeeded with descriptor 3, `create_event_group` does
stop immediately and returns the error — but its trace contains no close
call at all: the descriptor opened for member 0 is closed zero times, not
once.  At the point of failure the opened descriptors sit in a local
`Vec<RawFd>` of plain integers; the `EventGroup` handle whose `Drop` closes
descriptors is only constructed on the success path, so every descriptor
opened before the failure leaks. -/
theorem C1_partial_failure_leaks_descriptor :
    leakOpenRes 0 = 3 ∧ leakOpenRes 1 < 0 ∧
      leakRun.1 = .error (.Io 28) ∧
      leakRun.2.opens.length = 2 ∧
      leakRun.2.closes = [] :=
  ⟨rfl, by decide, rfl, rfl, rfl⟩

/-- The oracle of the identity-loss runs: call 0 succeeds with descriptor 3,
call 1 fails. -/
def c2OpenRes : Nat → Int := fun i => if i = 0 then 3 else -1

/-- C2 counterexample: two runs that fail on different offending events —
member 1 is `Instructions` in the first run and `Cycles` in the second —
surface the identical error value `Io 22`.  An error value equal across runs
with different offending events cannot carry the identity of the offending
event, refuting the claim that it does: `PipaCollectorError::Io` carries only
the OS error. -/
theorem C2_error_lacks_offending_event_identity :
    (create_event_group c2OpenRes (fun _ => 22) 136
        [PerfEvent.Cycles, PerfEvent.Instructions]).1 = .error (.Io 22) ∧
      (create_event_group c2OpenRes (fun _ => 22) 136
        [PerfEvent.Instructions, PerfEvent.Cycles]).1 = .error (.Io 22) :=
  ⟨rfl, rfl⟩

/-- C2 (amended): every failure of `create_event_group` is surfaced as a
typed error value that distinguishes the empty-event-list case
(`InvalidFormat` with the fixed message) from kernel rejection (`Io`); in the
kernel-rejection case the error carries the OS error of the failing call
unmodified — but not the identity of the offending event. -/
theorem C2_error_taxonomy (openRes errnoRes : Nat → Int) (sz : Nat)
    (events : List PerfEvent) (err : PipaCollectorError)
    (h : (create_event_group openRes errnoRes sz events).1 = .error err) :
    (events = [] ∧
        err = .InvalidFormat "Cannot create an event group with no events.") ∨
      (events ≠ [] ∧ ∃ k, k < events.length ∧ openRes k < 0 ∧
        err = .Io (errnoRes k)) := by
  rcases events with _ | ⟨e0, rest⟩
  · rw [create_event_group_nil] at h
    simp only [Except.error.injEq] at h
    exact Or.inl ⟨rfl, h.symm⟩
  · rw [create_event_group_cons] at h
    rcases loop_error openRes errnoRes sz (e0 :: rest) 0 (-1) [] [] err h with
      ⟨d, hd, hneg, herr⟩
    exact Or.inr ⟨by simp, d, hd, by simpa using hneg, by simpa using herr⟩

/-- C3: among the attribute records passed to the open syscalls of one
`create_event_group` run, only the first (index 0) record carries the
disabled bit, the inherit bit and the GROUP|ID read-format; the record of
every subsequent member carries none of these three settings. -/
theorem C3_leader_only_flags (openRes errnoRes : Nat → Int) (sz : Nat)
    (events : List PerfEvent) (j : Nat) (c : OpenCall)
    (h : ((create_event_group openRes errnoRes sz
        events).2.opens)[j]? = some c) :
    (j = 0 → c.attr.disabled = 1 ∧ c.attr.inherit = 1 ∧
        c.attr.read_format = (PERF_FORMAT_GROUP ||| PERF_FORMAT_ID)) ∧
      (j ≠ 0 → c.attr.disabled = 0 ∧ c.attr.inherit = 0 ∧
        c.attr.read_format = 0) := by
  rcases create_opens_get openRes errnoRes sz events j c h with ⟨e, _, hc⟩
  subst hc
  constructor
  · intro hj
    subst hj
    simp [mkAttrs, PerfEventAttr.default]
  · intro hj
    simp [mkAttrs, hj, PerfEventAttr.default]

/-- C4: every counter-open syscall of a `create_event_group` run is invoked
with `pid = 0`, `cpu = -1` and `flags = 0`; the first call passes
`group_fd = -1`, and every later call passes `group_fd` equal to the
descriptor the oracle returned for the first member (the leader). -/
theorem C4_open_syscall_arguments (openRes errnoRes : Nat → Int) (sz : Nat)
    (events : List PerfEvent) (j : Nat) (c : OpenCall)
    (h : ((create_event_group openRes errnoRes sz
        events).2.opens)[j]? = some c) :
    c.pid = 0 ∧ c.cpu = -1 ∧ c.flags = 0 ∧
      c.group_fd = if j = 0 then -1 else openRes 0 := by
  rcases create_opens_get openRes errnoRes sz events j c h with ⟨e, _, hc⟩
  subst hc
  refine ⟨rfl, rfl, rfl, ?_⟩
  by_cases hj : j = 0
  · simp [hj]
  · have h1 : 1 ≤ j := by omega
    simp [hj, h1]

/-- C9: the attribute record of the j-th open call of a run, where the j-th
requested event is `e`, has its `size` field set exactly to the ABI structure
size `sz` (the embedding's stand-in for
`std::mem::size_of::<perf_event_attr>()`), its `type_` and `config` fields
set from `e.to_config`, and every other modelled field zero-initialized —
except the three leader-only settings, which are zero whenever `j ≠ 0`. -/
theorem C9_attr_record_zero_initialized (openRes errnoRes : Nat → Int)
    (sz : Nat) (events : List PerfEvent) (j : Nat) (c : OpenCall)
    (e : PerfEvent)
    (h : ((create_event_group openRes errnoRes sz
        events).2.opens)[j]? = some c)
    (he : events[j]? = some e) :
    c.attr.size = sz ∧
      c.attr.type_ = e.to_config.1 ∧ c.attr.config = e.to_config.2 ∧
      c.attr.sample_period = 0 ∧ c.attr.sample_type = 0 ∧
      c.attr.pinned = 0 ∧ c.attr.exclusive = 0 ∧
      c.attr.exclude_user = 0 ∧ c.attr.exclude_kernel = 0 ∧
      c.attr.exclude_hv = 0 ∧ c.attr.exclude_idle = 0 ∧
      c.attr.enable_on_exec = 0 ∧ c.attr.wakeup_events = 0 ∧
      c.attr.bp_type = 0 ∧ c.attr.bp_addr = 0 ∧ c.attr.bp_len = 0 ∧
      c.attr.branch_sample_type = 0 ∧ c.attr.sample_regs_user = 0 ∧
      c.attr.sample_stack_user = 0 ∧ c.attr.clockid = 0 ∧
      c.attr.sample_regs_intr = 0 ∧ c.attr.aux_watermark = 0 ∧
      c.attr.sample_max_stack = 0 ∧ c.attr.sig_data = 0 ∧
      (j ≠ 0 → c.attr.disabled = 0 ∧ c.attr.inherit = 0 ∧
        c.attr.read_format = 0) := by
  rcases create_opens_get openRes errnoRes sz events j c h with ⟨e', he', hc⟩
  rw [he] at he'
  have hee : e = e' := Option.some.inj he'
  subst hee
  subst hc
  by_cases hj : j = 0 <;>
    simp [mkAttrs, hj, PerfEventAttr.default]

/-- C6: for every non-empty event list, `create_event_group` either returns
an error, or returns a group holding exactly one descriptor per requested
event whose `leader_fd` is the descriptor the oracle returned for the
first-requested event; it never returns a group with a mismatched member
count. -/
theorem C6_group_size_and_leader (openRes errnoRes : Nat → Int) (sz : Nat)
    (events : List PerfEvent) (h : events ≠ []) :
    (∃ err, (create_event_group openRes errnoRes sz events).1 = .error err) ∨
      ∃ g, (create_event_group openRes errnoRes sz events).1 = .ok g ∧
        g.fds.length = events.length ∧ g.leader_fd = some (openRes 0) := by
  rcases events with _ | ⟨e0, rest⟩
  · exact absurd rfl h
  · cases hres : (create_event_group openRes errnoRes sz (e0 :: rest)).1 with
    | error err => exact Or.inl ⟨err, rfl⟩
    | ok g =>
      rw [create_event_group_cons] at hres
      rcases loop_ok openRes errnoRes sz (e0 :: rest) 0 (-1) [] [] g hres with
        ⟨tail, hfds, hlen, hval⟩
      simp only [List.nil_append] at hfds
      have h0 := hval 0 (by simp)
      refine Or.inr ⟨g, rfl, ?_, ?_⟩
      · rw [hfds, hlen]
      · rw [EventGroup.leader_fd, hfds]
        simpa using h0

/-- C10 (implicit): every `EventGroup` that `create_event_group` returns
holds a non-empty descriptor list, so `leader_fd`, which indexes the first
element, is total on such values — the index access `fds[0]` is never out of
bounds. -/
theorem C10_leader_fd_total_on_results (openRes errnoRes : Nat → Int)
    (sz : Nat) (events : List PerfEvent) (g : EventGroup)
    (h : (create_event_group openRes errnoRes sz events).1 = .ok g) :
    g.fds ≠ [] ∧ (g.leader_fd).isSome = true := by
  rcases events with _ | ⟨e0, rest⟩
  · rw [create_event_group_nil] at h
    simp at h
  · rw [create_event_group_cons] at h
    rcases loop_ok openRes errnoRes sz (e0 :: rest) 0 (-1) [] [] g h with
      ⟨tail, hfds, hlen, hval⟩
    simp only [List.nil_append] at hfds
    have h0 := hval 0 (by simp)
    constructor
    · rw [hfds]
      intro hnil
      rw [hnil] at h0
      simp at h0
    · rw [EventGroup.leader_fd, hfds, h0]
      rfl

/-! ## Witnesses -/

/-- Oracle of the all-success witness runs: call `i` returns descriptor
`3 + i`. -/
def wOpenRes : Nat → Int := fun i => 3 + i

/-- Errno oracle of the witness runs. -/
def wErrnoRes : Nat → Int := fun _ => 0

/-- Event list of the witness runs. -/
def wEvents : List PerfEvent := [PerfEvent.Cycles, PerfEvent.Instructions]

/-- The second open call of the all-success witness run. -/
def wCall1 : OpenCall := ⟨mkAttrs 136 1 .Instructions, 0, -1, 3, 0⟩

/-- Witness for C3: in the concrete all-success run over
`[Cycles, Instructions]`, the second open call's attribute record carries
none of the three leader-only settings. -/
theorem C3_leader_only_flags_witness :
    ((create_event_group wOpenRes wErrnoRes 136 wEvents).2.opens)[1]? =
        some wCall1 ∧
      (wCall1.attr.disabled = 0 ∧ wCall1.attr.inherit = 0 ∧
        wCall1.attr.read_format = 0) :=
  ⟨rfl, (C3_leader_only_flags wOpenRes wErrnoRes 136 wEvents 1 wCall1
    rfl).2 (by decide)⟩

/-- Witness for C4: in the concrete all-success run, the second open call
passes `pid = 0`, `cpu = -1`, `flags = 0` and the leader's descriptor as
`group_fd`. -/
theorem C4_open_syscall_arguments_witness :
    ((create_event_group wOpenRes wErrnoRes 136 wEvents).2.opens)[1]? =
        some wCall1 ∧
      (wCall1.pid = 0 ∧ wCall1.cpu = -1 ∧ wCall1.flags = 0 ∧
        wCall1.group_fd = if 1 = 0 then -1 else wOpenRes 0) :=
  ⟨rfl, C4_open_syscall_arguments wOpenRes wErrnoRes 136 wEvents 1 wCall1 rfl⟩

/-- Witness for C9: the second open call's attribute record in the concrete
all-success run, checked field by field. -/
theorem C9_attr_record_zero_initialized_witness :
    ((create_event_group wOpenRes wErrnoRes 136 wEvents).2.opens)[1]? =
        some wCall1 ∧ wEvents[1]? = some PerfEvent.Instructions ∧
      (wCall1.attr.size = 136 ∧
        wCall1.attr.type_ = PerfEvent.Instructions.to_config.1 ∧
        wCall1.attr.config = PerfEvent.Instructions.to_config.2 ∧
        wCall1.attr.sample_period = 0 ∧ wCall1.attr.sample_type = 0 ∧
        wCall1.attr.pinned = 0 ∧ wCall1.attr.exclusive = 0 ∧
        wCall1.attr.exclude_user = 0 ∧ wCall1.attr.exclude_kernel = 0 ∧
        wCall1.attr.exclude_hv = 0 ∧ wCall1.attr.exclude_idle = 0 ∧
        wCall1.attr.enable_on_exec = 0 ∧ wCall1.attr.wakeup_events = 0 ∧
        wCall1.attr.bp_type = 0 ∧ wCall1.attr.bp_addr = 0 ∧
        wCall1.attr.bp_len = 0 ∧ wCall1.attr.branch_sample_type = 0 ∧
        wCall1.attr.sample_regs_user = 0 ∧
        wCall1.attr.sample_stack_user = 0 ∧ wCall1.attr.clockid = 0 ∧
        wCall1.attr.sample_regs_intr = 0 ∧ wCall1.attr.aux_watermark = 0 ∧
        wCall1.attr.sample_max_stack = 0 ∧ wCall1.attr.sig_data = 0 ∧
        (1 ≠ 0 → wCall1.attr.disabled = 0 ∧ wCall1.attr.inherit = 0 ∧
          wCall1.attr.read_format = 0)) :=
  ⟨rfl, rfl, C9_attr_record_zero_initialized wOpenRes wErrnoRes 136 wEvents 1
    wCall1 PerfEvent.Instructions rfl rfl⟩

/-- Witness for C6: the concrete all-success run over two events returns a
two-member group led by descriptor 3. -/
theorem C6_group_size_and_leader_witness :
    wEvents ≠ [] ∧
      ((∃ err, (create_event_group wOpenRes wErrnoRes 136 wEvents).1 =
          .error err) ∨
        ∃ g, (create_event_group wOpenRes wErrnoRes 136 wEvents).1 = .ok g ∧
          g.fds.length = wEvents.length ∧
          g.leader_fd = some (wOpenRes 0)) :=
  ⟨by decide, C6_group_size_and_leader wOpenRes wErrnoRes 136 wEvents
    (by decide)⟩

/-- The group returned by the concrete all-success witness run. -/
def wGroup : EventGroup := ⟨[3, 4]⟩

/-- Witness for C10: the concrete all-success run returns the group
`⟨[3, 4]⟩`, whose descriptor list is non-empty and whose `leader_fd` is
defined. -/
theorem C10_leader_fd_total_witness :
    (create_event_group wOpenRes wErrnoRes 136 wEvents).1 = .ok wGroup ∧
      (wGroup.fds ≠ [] ∧ (wGroup.leader_fd).isSome = true) :=
  ⟨rfl, C10_leader_fd_total_on_results wOpenRes wErrnoRes 136 wEvents wGroup
    rfl⟩

/-- Oracle of the always-failing witness run. -/
def failOpenRes : Nat → Int := fun _ => -1

/-- Witness for C2 (amended): a run over `[Cycles]` whose only open fails
surfaces `Io` of the observed OS error, and the taxonomy theorem applies to
it. -/
theorem C2_error_taxonomy_witness :
    (create_event_group failOpenRes wErrnoRes 136 [PerfEvent.Cycles]).1 =
        .error (.Io 0) ∧
      (([PerfEvent.Cycles] = [] ∧
          (PipaCollectorError.Io 0) = .InvalidFormat
            "Cannot create an event group with no events.") ∨
        ([PerfEvent.Cycles] ≠ [] ∧
          ∃ k, k < [PerfEvent.Cycles].length ∧ failOpenRes k < 0 ∧
            (PipaCollectorError.Io 0) = .Io (wErrnoRes k))) :=
  ⟨rfl, C2_error_taxonomy failOpenRes wErrnoRes 136 [PerfEvent.Cycles]
    (.Io 0) rfl⟩

end PipaRs
